import Mathlib

/-!
Verification of the Query Classification & Retrieval Engine of sidekick-pro
(`backend/app/main.py`), via a shallow embedding of the relevant functions.

Conventions of the embedding:
* Python dict-shaped commit events become the `Event` structure; `dict.get`
  with a default becomes a total field holding that default.
* Python strings are Lean `String`s; `sub in s` is `strContains s sub`
  (substring containment); `str.lower()` is `asciiLower` (the source only
  ever lowercases ASCII query text).
* The external vector index (Qdrant) and embedding model are modelled by
  `Backend`: either absent (`down`, the `not qdrant_client or not
  embedding_model` case) or present, in which case the service is a function
  from the constructed search filter to either an exception (`.error`) or a
  list of hit payloads (`.ok hits`).
* `sorted(key=lambda x: x.get('timestamp',''), reverse=True)` (a stable
  descending sort) is modelled by `sortTsDesc`, a stable insertion sort;
  a stable sort is uniquely determined by the comparison, so this agrees
  with Python's stable mergesort.
* Exceptions escaping a function are modelled with `Except Unit`.
-/

/-- Substring test on `List Char`: does `pat` occur contiguously in the list?
Models Python's `pat in s` for strings. -/
def listInfix (pat : List Char) : List Char → Bool
  | [] => pat.isEmpty
  | c :: cs => pat.isPrefixOf (c :: cs) || listInfix pat cs

/-- `strContains s sub` models Python `sub in s`. -/
def strContains (s sub : String) : Bool :=
  listInfix sub.data s.data

/-- ASCII lowercasing; models Python `str.lower()` on the ASCII query text
the source handles. -/
def asciiLower (s : String) : String :=
  ⟨s.data.map (fun c => if 'A' ≤ c && c ≤ 'Z' then Char.ofNat (c.toNat + 32) else c)⟩

/-- A word character in the sense of the regexes `\b[a-fA-F0-9]{6,40}\b`
used by the source (`re` word class, ASCII range). -/
def isWordChar (c : Char) : Bool := c.isAlphanum || c == '_'

/-- Hexadecimal digit, as matched by `[a-fA-F0-9]`. -/
def isHexDigitChar (c : Char) : Bool :=
  c.isDigit || ('a' ≤ c && c ≤ 'f') || ('A' ≤ c && c ≤ 'F')

/-- Split a character list into its maximal runs of word characters.
`wordRunsAux cur l` carries the current (reversed) run. -/
def wordRunsAux : List Char → List Char → List (List Char)
  | cur, [] => if cur.isEmpty then [] else [cur.reverse]
  | cur, c :: cs =>
    if isWordChar c then wordRunsAux (c :: cur) cs
    else if cur.isEmpty then wordRunsAux [] cs
    else cur.reverse :: wordRunsAux [] cs

/-- Maximal word-character runs of a character list. -/
def wordRuns (l : List Char) : List (List Char) := wordRunsAux [] l

/-- A word run matched by `\b[a-fA-F0-9]{6,40}\b`: both ends of a match must
be word boundaries and the interior of a word run never is one, so the regex
matches exactly the maximal word runs that are entirely hexadecimal and have
length 6 to 40. -/
def isHexToken (r : List Char) : Bool :=
  decide (6 ≤ r.length) && decide (r.length ≤ 40) && r.all isHexDigitChar

/-- `re.search(r'\b[a-fA-F0-9]{6,40}\b', q)` succeeds. -/
def hasHexToken (q : String) : Bool :=
  (wordRuns q.data).any isHexToken

/-- `extract_commit_hash` (main.py 962-967): the first hexadecimal token of
6-40 characters found in the raw query, or `""`. -/
def extract_commit_hash (q : String) : String :=
  match (wordRuns q.data).find? isHexToken with
  | some r => ⟨r⟩
  | none => ""

/-- Decimal value of a digit run; models `int(token)`. -/
def digitsToNat (l : List Char) : Nat :=
  l.foldl (fun n c => n * 10 + (c.toNat - 48)) 0

/-- `extract_number_from_query` (main.py 969-973): first integer token, or 0. -/
def extract_number_from_query (q : String) : Nat :=
  match (wordRuns q.data).find? (fun r => !r.isEmpty && r.all Char.isDigit) with
  | some r => digitsToNat r
  | none => 0

/-- Lexicographic strict comparison on character lists by code point;
models Python's `<` on strings. -/
def listLt : List Char → List Char → Bool
  | _, [] => false
  | [], _ :: _ => true
  | a :: as, b :: bs => a.toNat < b.toNat || (a.toNat == b.toNat && listLt as bs)

/-- Python string `<`, used by the timestamp sorts. -/
def strLt (a b : String) : Bool := listLt a.data b.data

/-- A commit event record. Fields mirror the dict keys the source reads, with
each `event.get(key, default)` becoming a total field holding that default. -/
structure Event where
  commit_hash : String
  repository : String
  message : String
  author : String
  timestamp : String
  files_changed : List String
  primary_branch : String
  all_branches : List String
  merge_commit : Bool
  branch_context : String
  type : String
deriving DecidableEq

/-- Condition clause `{key, match: {value}}` of a Qdrant filter. -/
structure Cond where
  key : String
  value : String
deriving DecidableEq

/-- A Qdrant filter object: `{"must": [...]}` or `{"should": [...]}`. -/
inductive QFilter where
  | must (conds : List Cond)
  | should (conds : List Cond)
deriving DecidableEq

/-- The vector-index/embedding backend as seen by `search_similar`:
`down` models `not qdrant_client or not embedding_model`; `up svc` models a
live service answering a search request for a given filter with either an
exception or a list of hit payloads. -/
inductive Backend where
  | down
  | up (svc : Option QFilter → Except Unit (List Event))

/-- Filter construction of `search_similar` (main.py 283-294): collect the
repository condition and the branch `should` conditions into one list; a
single condition becomes `{"must": [...]}`, more than one becomes
`{"should": [...]}`. -/
def buildSearchFilter (repository : Option String) (branch_filter : Option (List Cond)) :
    Option QFilter :=
  let conds :=
    (match repository with
     | some r => [⟨"repository", r⟩]
     | none => []) ++
    (match branch_filter with
     | some l => l
     | none => [])
  if conds.isEmpty then none
  else if conds.length > 1 then some (.should conds) else some (.must conds)

/-- Branch names extracted from the `should` clauses of a branch filter
(main.py 264-268: each `condition['match']['value']`). -/
def branchTargets (conds : List Cond) : List String := conds.map (·.value)

/-- Fallback branch predicate (main.py 270-274): the event's
`primary_branch` is a target, or any of its `all_branches` is. -/
def matchesBranch (targets : List String) (e : Event) : Bool :=
  targets.contains e.primary_branch || e.all_branches.any (fun b => targets.contains b)

/-- Stable insertion of an event into a timestamp-descending list: the new
element goes after every element whose timestamp is not smaller. -/
def insertTsDesc (e : Event) : List Event → List Event
  | [] => [e]
  | x :: xs => if strLt x.timestamp e.timestamp then e :: x :: xs else x :: insertTsDesc e xs

/-- Stable sort by timestamp descending; models
`sorted(events, key=lambda x: x.get('timestamp',''), reverse=True)`. -/
def sortTsDesc (l : List Event) : List Event :=
  l.foldl (fun acc e => insertTsDesc e acc) []

/-- Deduplication loop of `search_similar` (main.py 310-317), keeping the
first occurrence per `commit_hash`; `seen` is the accumulator set. -/
def dedupGo (seen : List String) : List Event → List Event
  | [] => []
  | e :: es =>
    if seen.contains e.commit_hash then dedupGo seen es
    else e :: dedupGo (e.commit_hash :: seen) es

/-- `seen = set()` entry point of the deduplication loop. -/
def dedupByHash (l : List Event) : List Event := dedupGo [] l

/-- `search_similar` (main.py 255-322). With the backend `down`, a linear
scan of the in-memory corpus: exact repository equality, branch predicate,
optional temporal sort, truncation to `limit`. With the backend `up`, the
query embedding and Qdrant search; an exception from the service is caught
and yields `[]` (main.py 320-322); on success the payloads are optionally
temporally sorted and deduplicated by commit hash. -/
def search_similar (b : Backend) (git_events : List Event) (_query : String)
    (limit : Nat) (repository : Option String) (branch_filter : Option (List Cond))
    (temporal_priority : Bool) : List Event :=
  match b with
  | .down =>
    let f1 := match repository with
      | some r => git_events.filter (fun e => e.repository == r)
      | none => git_events
    let f2 := match branch_filter with
      | some conds => f1.filter (matchesBranch (branchTargets conds))
      | none => f1
    let f3 := if temporal_priority then sortTsDesc f2 else f2
    f3.take limit
  | .up svc =>
    match svc (buildSearchFilter repository branch_filter) with
    | .error _ => []
    | .ok hits =>
      let events := if temporal_priority then sortTsDesc hits else hits
      dedupByHash events

/-- `search_similar_with_temporal_priority` (main.py 324-370). With
`temporal_priority` set: backend `down` filters the in-memory corpus with a
SUBSTRING repository test (`repository in e.get("repository","")`, main.py
333) and the branch predicate, then sorts by timestamp descending and takes
`limit`; backend `up` performs a plain semantic search for `limit * 2` hits
with no branch filter, then filters by branch in memory, sorts by timestamp
descending and takes `limit`. Without `temporal_priority` the source calls
`search_with_filters`, a function defined nowhere in the program, so the
call raises `NameError`; that branch is modelled as `.error ()`. -/
def search_similar_with_temporal_priority (b : Backend) (git_events : List Event)
    (query : String) (limit : Nat) (repository : Option String)
    (temporal_priority : Bool) (branch_filter : Option (List Cond)) :
    Except Unit (List Event) :=
  if temporal_priority then
    match b with
    | .down =>
      let f1 := match repository with
        | some r => git_events.filter (fun e => strContains e.repository r)
        | none => git_events
      let f2 := match branch_filter with
        | some conds => f1.filter (matchesBranch (branchTargets conds))
        | none => f1
      .ok ((sortTsDesc f2).take limit)
    | .up svc =>
      let semantic := search_similar (.up svc) git_events query (limit * 2) repository none false
      let filtered := match branch_filter with
        | some conds => semantic.filter (matchesBranch (branchTargets conds))
        | none => semantic
      .ok ((sortTsDesc filtered).take limit)
  else
    .error ()

/-- Rule 1 of `classify_query_type` (main.py 503-507): latest/recent-commit
phrasings. The argument is the already-lowercased query. -/
def isLatestQ (q : String) : Bool :=
  ["latest commit", "most recent commit", "last commit",
   "newest commit", "recent commit", "show the latest"].any (strContains q)

/-- Rule 2 (main.py 510): repository-summary keywords. -/
def isSummaryQ (q : String) : Bool :=
  ["summarize", "summary", "overview", "describe repo", "tell me about",
   "what is this repo"].any (strContains q)

/-- Rule 3 (main.py 514): list-commits phrasings. -/
def isListQ (q : String) : Bool :=
  ["show all commits", "list commits", "all the commits", "every commit",
   "commit list"].any (strContains q)

/-- Guard of rules 4a/4b (main.py 518): mentions "commit" plus an action
word. -/
def isCommitActionQ (q : String) : Bool :=
  strContains q "commit" &&
    ["show", "explain", "what", "analyze", "details"].any (strContains q)

/-- Rule 5 (main.py 527): recent-changes phrasings. -/
def isRecentChangesQ (q : String) : Bool :=
  ["recent changes", "what changed recently", "latest changes"].any (strContains q)

/-- Rule 6 (main.py 531): comparison keywords. -/
def isCompareQ (q : String) : Bool :=
  ["compare", "difference", "changed from", "vs", "versus"].any (strContains q)

/-- Rule 7 (main.py 535): timeline keywords. -/
def isTimelineQ (q : String) : Bool :=
  ["timeline", "history", "chronological", "when", "evolution"].any (strContains q)

/-- Rule 8 (main.py 539): author keywords. -/
def isAuthorQ (q : String) : Bool :=
  ["who", "author", "contributor", "developer"].any (strContains q)

/-- `classify_query_type` (main.py 499-542): ordered first-match rule chain
over the lowercased query. -/
def classify_query_type (q : String) : String :=
  if isLatestQ q then "latest_commit"
  else if isSummaryQ q then "repository_summary"
  else if isListQ q then "list_commits"
  else if isCommitActionQ q then
    if hasHexToken q then "specific_commit" else "general_commit_query"
  else if isRecentChangesQ q then "recent_changes"
  else if isCompareQ q then "commit_comparison"
  else if isTimelineQ q then "timeline"
  else if isAuthorQ q then "author_analysis"
  else "general"

/-- The Classifier's rule list as the spec describes it: an explicit ordered
list of (predicate, intent) pairs, evaluated first-match-wins, defaulting to
`general`. -/
def specRules : List ((String → Bool) × String) :=
  [(isLatestQ, "latest_commit"),
   (isSummaryQ, "repository_summary"),
   (isListQ, "list_commits"),
   (fun q => isCommitActionQ q && hasHexToken q, "specific_commit"),
   (fun q => isCommitActionQ q && !hasHexToken q, "general_commit_query"),
   (isRecentChangesQ, "recent_changes"),
   (isCompareQ, "commit_comparison"),
   (isTimelineQ, "timeline"),
   (isAuthorQ, "author_analysis")]

/-- First-match evaluation of an ordered rule list, `general` by default. -/
def classifyByRules (q : String) : String :=
  ((specRules.find? (fun r => r.1 q)).map Prod.snd).getD "general"

/-- Temporal keywords of `query_context` (main.py 2104-2105); the check is
against the lowercased query. -/
def isTemporalQuery (query : String) : Bool :=
  ["latest", "recent", "newest", "last", "most recent", "show the latest"].any
    (strContains (asciiLower query))

/-- The query request model (main.py 133-138); `branches = []` covers both
`None` and an empty list, which the source treats identically
(`if branches and len(branches) > 0`). -/
structure QueryRequest where
  query : String
  limit : Nat
  repository : Option String
  branches : List String
deriving DecidableEq

/-- Branch filter construction of `query_context` (main.py 2109-2118): one
`primary_branch` clause per requested branch, then one `all_branches` clause
per requested branch. -/
def buildBranchConds (branches : List String) : List Cond :=
  branches.map (fun b => ⟨"primary_branch", b⟩) ++
    branches.map (fun b => ⟨"all_branches", b⟩)

/-- One formatted entry of the response's `sources` list (main.py 2137-2150). -/
structure Source where
  type : String
  content : String
  timestamp : String
  author : String
  commit : String
  repository : String
  files_changed : List String
  primary_branch : String
  all_branches : List String
  merge_commit : Bool
  branch_context : String
  context : String
deriving DecidableEq

/-- Formatting of one source entry (main.py 2137-2150): `i` is the position
in the truncated list, `total` the length of the untruncated result list. -/
def formatSource (e : Event) (i : Nat) (total : Nat) : Source :=
  { type := e.type
    content := e.message
    timestamp := e.timestamp
    author := e.author
    commit := if e.commit_hash ≠ "" then e.commit_hash.take 8 else ""
    repository := e.repository
    files_changed := e.files_changed.take 5
    primary_branch := e.primary_branch
    all_branches := e.all_branches
    merge_commit := e.merge_commit
    branch_context := e.branch_context
    context := "Commit " ++ toString (i + 1) ++ " of " ++ toString total }

/-- The `for i, event in enumerate(similar_events[:limit])` loop building
`formatted_sources`. -/
def formatSources (i : Nat) (total : Nat) : List Event → List Source
  | [] => []
  | e :: es => formatSource e i total :: formatSources (i + 1) total es

/-- The retrieval and source-formatting portion of the `query_context`
endpoint (main.py 2095-2163). Answer synthesis and the confidence score are
modelled separately (`generate_intelligent_answer`, `calculate_confidence`);
they read the same `similar_events` list and do not affect `sources`.
`.error ()` models the catch-all `except` returning HTTP 500 (main.py
2161-2163), reached exactly when retrieval raises (the undefined
`search_with_filters` call). -/
def query_context (b : Backend) (git_events : List Event) (req : QueryRequest) :
    Except Unit (List Source) :=
  let branch_filter : Option (List Cond) :=
    if req.branches.isEmpty then none else some (buildBranchConds req.branches)
  let isT := isTemporalQuery req.query
  if isT || branch_filter.isSome then
    match search_similar_with_temporal_priority b git_events req.query
        (req.limit * 2) req.repository isT branch_filter with
    | .error e => .error e
    | .ok evs => .ok (formatSources 0 evs.length (evs.take req.limit))
  else
    let lim := if strContains (asciiLower req.query) "summar" then 50 else req.limit * 2
    let evs := search_similar b git_events req.query lim req.repository none false
    .ok (formatSources 0 evs.length (evs.take req.limit))

/-- The result of an answer-synthesis formatter. The source formatters build
long report strings; every branch of a formatter either returns a literal
message string verbatim (`msg`) or renders a report determined by the listed
commit data. The rendering of a report to text is abstracted away: each
report constructor records the formatter family and exactly the commit
records the corresponding source branch feeds into its template. -/
inductive Synth where
  | msg (s : String)
  | commitReport (target : Event)
  | recentList (commits : List Event)
  | repoSummary (commits : List Event)
  | commitList (shown : List Event) (total : Nat)
  | comparison (c1 c2 : Event)
  | timelineReport (commits : List Event)
  | authorReport (commits : List Event)
  | llmAnswer (s : String)
  | fallbackList (commits : List Event)
deriving DecidableEq

/-- `get_latest_commit` (main.py 544-553): empty guard, then the detailed
analysis of the head of the timestamp-descending sort. -/
def get_latest_commit (events : List Event) : Synth :=
  match sortTsDesc events with
  | [] => .msg "No commits found."
  | latest :: _ => .commitReport latest

/-- `get_recent_changes` (main.py 555-576): empty guard, then a listing of
the `limit` (default 5) most recent commits. -/
def get_recent_changes (events : List Event) (limit : Nat) : Synth :=
  if events.isEmpty then .msg "No recent changes found."
  else .recentList ((sortTsDesc events).take limit)

/-- `generate_enhanced_repository_summary` (main.py 578-619): empty guard,
then the aggregate report over the event list. -/
def generate_enhanced_repository_summary (events : List Event) (_query : String) : Synth :=
  if events.isEmpty then .msg "No repository data available for summary."
  else .repoSummary events

/-- `list_all_commits` (main.py 621-645): empty guard, then a listing of the
first `n` commits where `n` is the first integer in the query, defaulting
to 20. -/
def list_all_commits (events : List Event) (query : String) : Synth :=
  if events.isEmpty then .msg "No commits found."
  else
    let limit := if extract_number_from_query query ≠ 0
                 then extract_number_from_query query else 20
    .commitList (events.take limit) events.length

/-- `analyze_specific_commit` (main.py 647-666): extract a hash token from
the query; if one is present, target the FIRST event whose `commit_hash`
starts with the token; otherwise target the first event of the list. A
missing target yields the literal not-found message. -/
def analyze_specific_commit (events : List Event) (query : String) : Synth :=
  let commit_hash := extract_commit_hash query
  if commit_hash ≠ "" then
    match events.find? (fun e => commit_hash.data.isPrefixOf e.commit_hash.data) with
    | some e => .commitReport e
    | none => .msg "Could not find the specified commit."
  else
    match events with
    | [] => .msg "Could not find the specified commit."
    | e :: _ => .commitReport e

/-- `handle_general_commit_query` (main.py 489-497): generic phrasing shows
the latest commit, otherwise fall through to the specific-commit analysis. -/
def handle_general_commit_query (events : List Event) (query : String) : Synth :=
  if ["commit", "show commit", "what commit", "tell me about commit"].any
      (strContains (asciiLower query)) then
    get_latest_commit events
  else
    analyze_specific_commit events query

/-- `compare_commits` (main.py 2342-2351): guard for fewer than two events,
then a side-by-side report of the first two. -/
def compare_commits (events : List Event) (_query : String) : Synth :=
  match events with
  | c1 :: c2 :: _ => .comparison c1 c2
  | _ => .msg "Need at least 2 commits to compare."

/-- `generate_detailed_timeline` (main.py 411-421 and following): empty
guard, then the calendar-bucket report over the sorted events. -/
def generate_detailed_timeline (events : List Event) (_query : String) : Synth :=
  if events.isEmpty then .msg "No timeline data available."
  else .timelineReport (sortTsDesc events)

/-- `analyze_author_activity` (main.py 446-486): empty guard, then the
per-author aggregate report. -/
def analyze_author_activity (events : List Event) (_query : String) : Synth :=
  if events.isEmpty then .msg "No author data available."
  else .authorReport events

/-- `generate_fallback_response` (main.py 2353-2373): empty guard, then a
plain listing of the first five commits. -/
def generate_fallback_response (_query : String) (events : List Event) : Synth :=
  if events.isEmpty then .msg "No relevant events found."
  else .fallbackList (events.take 5)

/-- `generate_intelligent_answer` (main.py 372-409): empty guard returning
the literal no-data message, then intent dispatch on
`classify_query_type(query.lower())`. The external language-model call of
the final branch (`query_enhanced_llm`) is modelled by the `llm` argument:
`some s` with nonempty `s` is a successful completion, `none` or `some ""`
is the empty-string failure outcome, which falls back to the plain
listing. -/
def generate_intelligent_answer (query : String) (events : List Event)
    (llm : Option String) : Synth :=
  if events.isEmpty then .msg "No relevant events found."
  else
    let query_lower := asciiLower query
    let query_type := classify_query_type query_lower
    if query_type = "latest_commit" then get_latest_commit events
    else if query_type = "recent_changes" then get_recent_changes events 5
    else if query_type = "repository_summary" then
      generate_enhanced_repository_summary events query
    else if query_type = "list_commits" then list_all_commits events query
    else if query_type = "specific_commit" then analyze_specific_commit events query
    else if query_type = "general_commit_query" then
      handle_general_commit_query events query
    else if query_type = "commit_comparison" then compare_commits events query
    else if query_type = "timeline" then generate_detailed_timeline events query
    else if query_type = "author_analysis" then analyze_author_activity events query
    else
      match llm with
      | some s => if s ≠ "" then .llmAnswer s else generate_fallback_response query events
      | none => generate_fallback_response query events

/-- `calculate_confidence` (main.py 2384-2399), with the Python float
arithmetic carried out in exact rational arithmetic (all constants are the
decimal literals of the source). -/
def calculate_confidence (_query : String) (answer : String) (sources : List Source) : ℚ :=
  let c0 : ℚ := 1/2
  let c1 := if ¬ sources.isEmpty then c0 + min (3/10) ((sources.length : ℚ) * (1/20)) else c0
  let c2 := if answer.length > 100 then c1 + 1/10 else c1
  let c3 := if strContains answer "I found" || strContains answer "Based on"
            then c2 + 1/10 else c2
  min (19/20) c3

/-- Strip trailing `/` and `\` characters; models `normalized.rstrip('/\\')`
(main.py 204). -/
def rstripSlashes (s : String) : String :=
  ⟨(s.data.reverse.dropWhile (fun c => c == '/' || c == '\\')).reverse⟩

/-- `normalize_repo_path` (main.py 199-208). `Path(path).resolve()` depends
on the filesystem and is passed in as the `resolve` argument; the
`os.name == 'nt'` lowercasing branch is not taken on the POSIX deployment
modelled here. -/
def normalize_repo_path (resolve : String → String) (path : String) : String :=
  rstripSlashes (resolve path)

/-- One `RepositoryEntry` of the `indexed_repositories` registry
(main.py 2044-2051). -/
structure RepoEntry where
  path : String
  first_indexed : String
  last_updated : String
  commit_count : Nat
  selected : Bool
deriving DecidableEq

/-- The mutable state `ingest_git_event` touches: the in-memory commit list
and the repository registry (a dict keyed by normalized path, modelled as an
association list in insertion order). -/
structure IngestState where
  git_events : List Event
  indexed_repositories : List (String × RepoEntry)
deriving DecidableEq

/-- The state of the Qdrant collection as consulted by
`check_commit_exists`: client absent, scroll raising, or a live collection
of stored points. -/
inductive IndexState where
  | down
  | failing
  | up (points : List Event)
deriving DecidableEq

/-- `check_commit_exists` (main.py 1483-1508): `False` when the client is
absent or the hash is empty; otherwise a scroll for an exact `commit_hash`
payload match, with any exception caught and reported as `False`. -/
def check_commit_exists (ix : IndexState) (commit_hash : String) : Bool :=
  match ix with
  | .down => false
  | .failing => false
  | .up points =>
    if commit_hash = "" then false
    else points.any (fun p => p.commit_hash == commit_hash)

/-- Status field of the `ingest_git_event` response. -/
inductive IngestStatus where
  | duplicate
  | success
deriving DecidableEq

/-- Does the registry have an entry under `key`? -/
def hasRepoKey (repos : List (String × RepoEntry)) (key : String) : Bool :=
  repos.any (fun p => p.1 == key)

/-- Point update of the registry entry under `key`. -/
def updateRepoEntry (repos : List (String × RepoEntry)) (key : String)
    (f : RepoEntry → RepoEntry) : List (String × RepoEntry) :=
  repos.map (fun p => if p.1 == key then (p.1, f p.2) else p)

/-- `ingest_git_event` (main.py 2031-2093). `now` stands for
`datetime.now().isoformat()`; `resolve` for `Path(...).resolve()`. In source
order: normalize the repository path, create a registry entry for an unseen
repository, bump `last_updated` and `commit_count` of the tracked entry,
THEN check for a duplicate (returning the duplicate status without storing),
and otherwise default the timestamp, tag the event and append it to
`git_events`. The best-effort background write to Qdrant and the periodic
registry save are I/O side effects outside this state and are not modelled. -/
def ingest_git_event (ix : IndexState) (resolve : String → String) (now : String)
    (st : IngestState) (ev : Event) : IngestStatus × IngestState :=
  let repo := if ev.repository = "unknown" then "unknown"
              else normalize_repo_path resolve ev.repository
  let ev1 := if ev.repository = "unknown" then ev else { ev with repository := repo }
  let repos1 :=
    if repo ≠ "unknown" ∧ ¬ hasRepoKey st.indexed_repositories repo then
      st.indexed_repositories ++ [(repo, ⟨repo, now, now, 0, true⟩)]
    else st.indexed_repositories
  let repos2 :=
    if hasRepoKey repos1 repo then
      updateRepoEntry repos1 repo
        (fun r => { r with last_updated := now, commit_count := r.commit_count + 1 })
    else repos1
  if ev.commit_hash ≠ "" ∧ check_commit_exists ix ev.commit_hash then
    (.duplicate, { st with indexed_repositories := repos2 })
  else
    let ev2 := { ev1 with
      timestamp := if ev1.timestamp = "" then now else ev1.timestamp
      type := "git_commit" }
    (.success, { git_events := st.git_events ++ [ev2], indexed_repositories := repos2 })

/-- Number of distinct `commit_hash` values held in a commit list: the
Commit Store's unique-commit count. -/
def uniqueCommitCount (l : List Event) : Nat :=
  (l.map (·.commit_hash)).dedup.length

/-- `commit_count` bookkeeping recorded for `key`, 0 when untracked. -/
def repoCommitCount (st : IngestState) (key : String) : Nat :=
  match st.indexed_repositories.find? (fun p => p.1 == key) with
  | some p => p.2.commit_count
  | none => 0

/-- The corpus a temporal fallback query is scoped to (main.py 331-345):
the in-memory list under the substring repository test and the branch
predicate of the request. -/
def scopedFallbackCorpus (git_events : List Event) (req : QueryRequest) : List Event :=
  let branch_filter : Option (List Cond) :=
    if req.branches.isEmpty then none else some (buildBranchConds req.branches)
  let f1 := match req.repository with
    | some r => git_events.filter (fun e => strContains e.repository r)
    | none => git_events
  match branch_filter with
  | some conds => f1.filter (matchesBranch (branchTargets conds))
  | none => f1

/-- Fixture: an old commit (timestamp 2021). -/
def fxOld : Event :=
  ⟨"aaa111aaa111", "/repo/a", "fix: bug", "bob", "2021-01-01T00:00:00",
   ["b.py"], "main", ["main"], false, "", "git_commit"⟩

/-- Fixture: the most recent commit (timestamp 2023). -/
def fxNew : Event :=
  ⟨"ccc333ccc333", "/repo/a", "feat: add", "alice", "2023-01-01T00:00:00",
   ["a.py"], "main", ["main"], false, "", "git_commit"⟩

/-- Fixture: the commit with hash `bbb222` (timestamp 2022). -/
def fxBbb : Event :=
  ⟨"bbb222", "/repo/a", "refactor", "carol", "2022-01-01T00:00:00",
   [], "main", ["main"], false, "", "git_commit"⟩

/-- Fixture: a commit whose repository path is `abc`. -/
def fxAbc : Event :=
  ⟨"ddd444ddd444", "abc", "m", "dave", "2020-01-01T00:00:00",
   [], "main", ["main"], false, "", "git_commit"⟩

/-- Fixture: a vector-index service that raises on every request. -/
def raisingSvc : Option QFilter → Except Unit (List Event) := fun _ => .error ()

/-- Fixture: a vector-index service whose nearest-neighbor answer contains
only the old commit (the index need not hold the newest commit: writes to it
are best-effort). -/
def oldOnlySvc : Option QFilter → Except Unit (List Event) := fun _ => .ok [fxOld]

/-- Fixture: a non-temporal query request with no filters. -/
def reqPlain : QueryRequest := ⟨"hello", 10, none, []⟩

/-- Fixture: the spec's temporal scenario query. -/
def reqLatest : QueryRequest := ⟨"show the latest commit", 10, none, []⟩

/-- Fixture: a temporal request with repository filter `b`. -/
def reqSubstr : QueryRequest := ⟨"latest commit", 10, some "b", []⟩

/-- Fixture: a non-temporal request with a branch filter. -/
def reqBranches : QueryRequest := ⟨"hello", 10, none, ["main"]⟩

/-- Fixture: a git event as posted to the ingestion endpoint. -/
def ingestEvent : Event :=
  ⟨"aaa111", "/r", "m", "a", "2020-01-01", [], "main", ["main"], false, "", ""⟩

/-- Fixture: result of ingesting `ingestEvent` into the empty state with the
vector index down. -/
def ingestOnce : IngestStatus × IngestState :=
  ingest_git_event .down id "t1" ⟨[], []⟩ ingestEvent

/-- Fixture: result of ingesting the same event a second time, index still
down. -/
def ingestTwice : IngestStatus × IngestState :=
  ingest_git_event .down id "t2" ingestOnce.2 ingestEvent

/-- Fixture: result of ingesting the same event a second time with the index
up and already holding the commit. -/
def ingestTwiceUp : IngestStatus × IngestState :=
  ingest_git_event (.up [ingestEvent]) id "t2" ingestOnce.2 ingestEvent

/-- `listLt` never holds reflexively. -/
theorem listLt_irrefl (l : List Char) : listLt l l = false := by
  induction l with
  | nil => rfl
  | cons a as ih => simp [listLt, ih]

/-- Nothing is below the empty list. -/
theorem listLt_nil_right (b : List Char) : listLt b [] = false := by
  cases b <;> rfl

/-- `listLt` is transitive. -/
theorem listLt_trans : ∀ {a b c : List Char},
    listLt a b = true → listLt b c = true → listLt a c = true
  | _, b, [] , _, hbc => by rw [listLt_nil_right b] at hbc; cases hbc
  | [], _ :: _, _ :: _, _, _ => rfl
  | a :: as, [], _, hab, _ => by simp [listLt] at hab
  | a :: as, b :: bs, c :: cs, hab, hbc => by
    simp only [listLt, Bool.or_eq_true, Bool.and_eq_true, beq_iff_eq, decide_eq_true_eq] at *
    rcases hab with h1 | ⟨h1, h1'⟩ <;> rcases hbc with h2 | ⟨h2, h2'⟩
    · exact Or.inl (h1.trans h2)
    · exact Or.inl (h2 ▸ h1)
    · exact Or.inl (h1 ▸ h2)
    · exact Or.inr ⟨h1.trans h2, listLt_trans h1' h2'⟩

/-- `listLt` is asymmetric. -/
theorem listLt_asymm {a b : List Char} (h : listLt a b = true) : listLt b a = false := by
  by_contra hba
  have hba' : listLt b a = true := by
    cases hh : listLt b a
    · exact absurd hh hba
    · rfl
  have := listLt_trans h hba'
  rw [listLt_irrefl] at this
  exact Bool.false_ne_true this

/-- The non-increasing-timestamp relation on events, as Python's sort
guarantees it: the later element is not strictly greater. -/
def tsNonInc (a b : Event) : Prop := strLt a.timestamp b.timestamp = false

/-- The non-increasing-timestamp relation on formatted sources. -/
def srcTsNonInc (a b : Source) : Prop := strLt a.timestamp b.timestamp = false

/-- Membership in a stable insertion. -/
theorem mem_insertTsDesc {a e : Event} : ∀ {l : List Event},
    a ∈ insertTsDesc e l ↔ a = e ∨ a ∈ l := by
  intro l
  induction l with
  | nil => simp [insertTsDesc]
  | cons x xs ih =>
    simp only [insertTsDesc]
    split
    · simp [or_comm, or_assoc, or_left_comm]
    · simp [ih]
      tauto

/-- Stable insertion preserves the sorted-descending invariant. -/
theorem pairwise_insertTsDesc {e : Event} : ∀ {l : List Event},
    l.Pairwise tsNonInc → (insertTsDesc e l).Pairwise tsNonInc := by
  intro l
  induction l with
  | nil => intro _; simp [insertTsDesc, List.Pairwise]
  | cons x xs ih =>
    intro h
    rcases List.pairwise_cons.mp h with ⟨hx, hxs⟩
    simp only [insertTsDesc]
    split
    · rename_i hlt
      refine List.pairwise_cons.mpr ⟨?_, h⟩
      intro y hy
      rcases List.mem_cons.mp hy with rfl | hy'
      · exact listLt_asymm hlt
      · have hxy := hx y hy'
        unfold tsNonInc at *
        cases hey : strLt e.timestamp y.timestamp
        · rfl
        · exact absurd (listLt_trans hlt hey) (by simp [strLt] at hxy ⊢; simp [hxy])
    · rename_i hnlt
      refine List.pairwise_cons.mpr ⟨?_, ih hxs⟩
      intro y hy
      rcases mem_insertTsDesc.mp hy with rfl | hy'
      · unfold tsNonInc
        cases hh : strLt x.timestamp y.timestamp
        · rfl
        · exact absurd hh (by simp_all)
      · exact hx y hy'

/-- Membership across the fold that implements the sort. -/
theorem mem_sortFold {a : Event} : ∀ {l acc : List Event},
    a ∈ l.foldl (fun acc e => insertTsDesc e acc) acc ↔ a ∈ acc ∨ a ∈ l := by
  intro l
  induction l with
  | nil => simp
  | cons x xs ih =>
    intro acc
    simp only [List.foldl_cons, ih, mem_insertTsDesc, List.mem_cons]
    tauto

/-- The fold preserves the sorted-descending invariant. -/
theorem pairwise_sortFold : ∀ {l acc : List Event},
    acc.Pairwise tsNonInc →
    (l.foldl (fun acc e => insertTsDesc e acc) acc).Pairwise tsNonInc := by
  intro l
  induction l with
  | nil => intro acc h; simpa using h
  | cons x xs ih =>
    intro acc h
    exact ih (pairwise_insertTsDesc h)

/-- `sortTsDesc` produces a timestamp-non-increasing list. -/
theorem pairwise_sortTsDesc (l : List Event) : (sortTsDesc l).Pairwise tsNonInc :=
  pairwise_sortFold List.Pairwise.nil

/-- `sortTsDesc` preserves the set of events. -/
theorem mem_sortTsDesc {a : Event} {l : List Event} : a ∈ sortTsDesc l ↔ a ∈ l := by
  unfold sortTsDesc
  rw [mem_sortFold]
  simp

/-- The head of the descending sort is at least as recent as every event of
the input list. -/
theorem sortTsDesc_head_max {l xs : List Event} {x : Event}
    (h : sortTsDesc l = x :: xs) :
    ∀ a ∈ l, strLt x.timestamp a.timestamp = false := by
  intro a ha
  have hmem : a ∈ x :: xs := h ▸ mem_sortTsDesc.mpr ha
  have hp : (x :: xs).Pairwise tsNonInc := h ▸ pairwise_sortTsDesc l
  rcases List.mem_cons.mp hmem with rfl | hxs
  · exact listLt_irrefl _
  · exact (List.pairwise_cons.mp hp).1 a hxs

/-- Every member of `dedupGo seen l` has a commit hash outside `seen`. -/
theorem mem_dedupGo_not_seen {e : Event} : ∀ {seen : List String} {l : List Event},
    e ∈ dedupGo seen l → seen.contains e.commit_hash = false := by
  intro seen l
  induction l generalizing seen with
  | nil => intro h; cases h
  | cons x xs ih =>
    intro h
    simp only [dedupGo] at h
    split at h
    · exact ih h
    · rcases List.mem_cons.mp h with rfl | h'
      · simp_all
      · have := ih h'
        simp only [List.contains_cons, Bool.or_eq_false_iff] at this
        exact this.2

/-- The deduplication loop yields pairwise-distinct commit hashes. -/
theorem dedupGo_pairwise : ∀ {seen : List String} {l : List Event},
    (dedupGo seen l).Pairwise (fun a b => a.commit_hash ≠ b.commit_hash) := by
  intro seen l
  induction l generalizing seen with
  | nil => exact List.Pairwise.nil
  | cons x xs ih =>
    simp only [dedupGo]
    split
    · exact ih
    · refine List.pairwise_cons.mpr ⟨?_, ih⟩
      intro b hb
      have := mem_dedupGo_not_seen hb
      simp only [List.contains_cons, Bool.or_eq_false_iff] at this
      intro hcontra
      have := this.1
      simp [hcontra] at this

/-- `dedupByHash` yields pairwise-distinct commit hashes. -/
theorem dedupByHash_pairwise (l : List Event) :
    (dedupByHash l).Pairwise (fun a b => a.commit_hash ≠ b.commit_hash) :=
  dedupGo_pairwise

/-- Every source produced by the formatting loop comes from an input event,
at some position. -/
theorem mem_formatSources {s : Source} : ∀ {l : List Event} {i n : Nat},
    s ∈ formatSources i n l → ∃ e j, e ∈ l ∧ s = formatSource e j n := by
  intro l
  induction l with
  | nil => intro i n h; cases h
  | cons x xs ih =>
    intro i n h
    rcases List.mem_cons.mp h with rfl | h'
    · exact ⟨x, i, List.mem_cons_self _ _, rfl⟩
    · rcases ih h' with ⟨e, j, he, rfl⟩
      exact ⟨e, j, List.mem_cons_of_mem _ he, rfl⟩

/-- The formatting loop preserves timestamp-non-increase. -/
theorem formatSources_pairwise : ∀ {l : List Event} {i n : Nat},
    l.Pairwise tsNonInc → (formatSources i n l).Pairwise srcTsNonInc := by
  intro l
  induction l with
  | nil => intro i n _; exact List.Pairwise.nil
  | cons x xs ih =>
    intro i n h
    rcases List.pairwise_cons.mp h with ⟨hx, hxs⟩
    refine List.pairwise_cons.mpr ⟨?_, ih hxs⟩
    intro s hs
    rcases mem_formatSources hs with ⟨e, j, he, rfl⟩
    exact hx e he

/-- Sorting the empty list yields the empty list. -/
theorem sortTsDesc_nil : sortTsDesc [] = [] := rfl

/-- Formatting the empty list yields no sources. -/
theorem formatSources_nil (i n : Nat) : formatSources i n [] = [] := rfl

/-- Sources formatted from a (twice-)truncated descending sort are
timestamp-non-increasing. -/
theorem pairwise_format_take_take_sort (L : List Event) (a c i n : Nat) :
    (formatSources i n (((sortTsDesc L).take a).take c)).Pairwise srcTsNonInc := by
  have h1 : (((sortTsDesc L).take a).take c).Sublist (sortTsDesc L) :=
    (List.take_sublist _ _).trans (List.take_sublist _ _)
  exact formatSources_pairwise (List.Pairwise.sublist h1 (pairwise_sortTsDesc L))

/-- A list whose truncation starts with `x` itself starts with `x`. -/
theorem take_cons_inv {l : List Event} {n : Nat} {x : Event} {xs : List Event}
    (h : l.take n = x :: xs) : ∃ ys, l = x :: ys := by
  cases l with
  | nil => rw [List.take_nil] at h; cases h
  | cons a as =>
    cases n with
    | zero => cases h
    | succ m =>
      rw [List.take_succ_cons] at h
      injection h with h1 h2
      exact ⟨as, by rw [h1]⟩

/-- The first formatted source comes from the first event. -/
theorem formatSources_cons_inv {s : Source} {rest : List Source} {i n : Nat} {l : List Event}
    (h : formatSources i n l = s :: rest) :
    ∃ x xs, l = x :: xs ∧ s = formatSource x i n := by
  cases l with
  | nil => cases h
  | cons x xs =>
    refine ⟨x, xs, rfl, ?_⟩
    injection h with h1 h2
    exact h1.symm

/-- C1 (amended): only the vector-index success path of `search_similar`
deduplicates: its result always has pairwise-distinct `commit_hash` values
(first occurrence kept, by full hash). The in-memory fallback paths return
their filtered results without any deduplication step. -/
theorem search_similar_index_path_dedupes (svc : Option QFilter → Except Unit (List Event))
    (g : List Event) (q : String) (lim : Nat) (repo : Option String)
    (bf : Option (List Cond)) (tp : Bool) :
    (search_similar (.up svc) g q lim repo bf tp).Pairwise
      (fun a b => a.commit_hash ≠ b.commit_hash) := by
  unfold search_similar
  rcases hsvc : svc (buildSearchFilter repo bf) with e | hits <;> simp only [hsvc]
  · exact List.Pairwise.nil
  · exact dedupByHash_pairwise _

/-- C1 (counterexample): with the vector index down and the in-memory corpus
holding two events with the same commit hash (reachable, since duplicate
detection consults only the index), a plain query returns two sources with
the same `commit` value. -/
theorem fallback_duplicate_sources_cx :
    query_context .down [fxOld, fxOld] reqPlain =
      .ok [formatSource fxOld 0 2, formatSource fxOld 1 2] ∧
    (formatSource fxOld 0 2).commit = (formatSource fxOld 1 2).commit := ⟨rfl, rfl⟩

/-- C2 (amended): the repository filter is exact equality only on
`search_similar`'s own in-memory fallback; on the vector-index path the
repository condition is a `must` clause only when it is the sole condition,
and with branch conditions present everything is combined under `should`
(OR); on the temporal-priority in-memory fallback the repository filter is a
substring test. -/
theorem repository_filter_semantics :
    (∀ (g : List Event) (q : String) (lim : Nat) (r : String) (bf : Option (List Cond))
       (tp : Bool) (e : Event),
       e ∈ search_similar .down g q lim (some r) bf tp → e.repository = r) ∧
    (∀ r : String, buildSearchFilter (some r) none = some (.must [⟨"repository", r⟩])) ∧
    (∀ (r : String) (conds : List Cond), conds ≠ [] →
       buildSearchFilter (some r) (some conds) = some (.should (⟨"repository", r⟩ :: conds))) ∧
    (∀ (g : List Event) (q : String) (lim : Nat) (r : String) (bf : Option (List Cond))
       (evs : List Event) (e : Event),
       search_similar_with_temporal_priority .down g q lim (some r) true bf = .ok evs →
       e ∈ evs → strContains e.repository r = true) := by
  refine ⟨?_, ?_, ?_, ?_⟩
  · intro g q lim r bf tp e he
    unfold search_similar at he
    have he2 := List.take_subset _ _ he
    rcases bf with _ | conds <;> cases tp <;>
      simp only [Bool.false_eq_true, if_false, if_true, mem_sortTsDesc, List.mem_filter] at he2
    · exact eq_of_beq he2.2
    · exact eq_of_beq he2.2
    · exact eq_of_beq he2.1.2
    · exact eq_of_beq he2.1.2
  · intro r; rfl
  · intro r conds hc
    cases conds with
    | nil => exact absurd rfl hc
    | cons c cs =>
      unfold buildSearchFilter
      simp [List.isEmpty]
  · intro g q lim r bf evs e hok he
    unfold search_similar_with_temporal_priority at hok
    rcases bf with _ | conds <;>
      simp only [if_true, Except.ok.injEq] at hok <;> subst hok
    · exact (List.mem_filter.mp (mem_sortTsDesc.mp (List.take_subset _ _ he))).2
    · exact (List.mem_filter.mp (List.mem_filter.mp
        (mem_sortTsDesc.mp (List.take_subset _ _ he))).1).2

/-- C2 (witness): the exact-equality conjunct applied to a concrete corpus
and repository filter. -/
theorem repository_filter_semantics_witness :
    fxNew ∈ search_similar .down [fxNew] "q" 5 (some "/repo/a") none false ∧
    fxNew.repository = "/repo/a" :=
  ⟨by decide,
   repository_filter_semantics.1 [fxNew] "q" 5 "/repo/a" none false fxNew (by decide)⟩

/-- C2 (counterexample): a temporal query scoped to repository `b` returns a
source whose repository is `abc` — the temporal fallback uses a substring
test, not exact equality. -/
theorem temporal_fallback_repository_substring_cx :
    query_context .down [fxAbc] reqSubstr = .ok [formatSource fxAbc 0 1] ∧
    (formatSource fxAbc 0 1).repository = "abc" ∧
    reqSubstr.repository = some "b" ∧ ("abc" : String) ≠ "b" := ⟨rfl, rfl, rfl, by decide⟩

/-- C3: a request with a non-empty branches list and no temporal keyword
routes to the `temporal_priority=False` branch of
`search_similar_with_temporal_priority`, which calls the nowhere-defined
`search_with_filters`; the raised NameError is caught by the endpoint's
catch-all and surfaces as a server error, for every backend and corpus. -/
theorem branch_query_without_temporal_errors (b : Backend) (g : List Event)
    (req : QueryRequest) (hb : req.branches ≠ []) (ht : isTemporalQuery req.query = false) :
    query_context b g req = .error () := by
  have hbe : req.branches.isEmpty = false := by
    cases hbl : req.branches with
    | nil => exact absurd hbl hb
    | cons x xs => rfl
  unfold query_context
  simp [hbe, ht, search_similar_with_temporal_priority]

/-- C3 (witness): the branch-filtered non-temporal request `reqBranches`
concretely produces the server error. -/
theorem branch_query_without_temporal_errors_witness :
    (["main"] ≠ ([] : List String)) ∧ isTemporalQuery "hello" = false ∧
    query_context .down [] reqBranches = .error () :=
  ⟨by decide, by decide,
   branch_query_without_temporal_errors .down [] reqBranches (by decide) (by decide)⟩

/-- C4 (amended): when the vector-index service raises, the exception is
caught and never propagated — the request still gets a non-error response —
but the result is the EMPTY list, not the in-memory fallback corpus; the
fallback corpus is consulted only when the index client or embedding model
is absent at call time. (Requests excluded by the hypothesis are the
branch-filtered non-temporal ones, which fail with NameError regardless of
the backend.) -/
theorem index_error_caught_empty_result (svc : Option QFilter → Except Unit (List Event))
    (g : List Event) (req : QueryRequest) (hsvc : ∀ f, svc f = .error ())
    (hreq : req.branches = [] ∨ isTemporalQuery req.query = true) :
    query_context (.up svc) g req = .ok [] := by
  unfold query_context
  cases ht : isTemporalQuery req.query with
  | true =>
    simp only [ht, Bool.true_or, if_true]
    unfold search_similar_with_temporal_priority search_similar
    simp only [hsvc]
    rcases hbe : req.branches.isEmpty <;>
      simp [hbe, List.filter_nil, sortTsDesc_nil, formatSources_nil]
  | false =>
    have hb : req.branches = [] := by
      rcases hreq with h | h
      · exact h
      · rw [ht] at h; cases h
    have hs : search_similar (.up svc) g req.query
        (if strContains (asciiLower req.query) "summar" = true then 50 else req.limit * 2)
        req.repository none false = [] := by
      simp [search_similar, hsvc]
    simp only [ht, hb, List.isEmpty_nil, if_true, Bool.false_or, Option.isSome_none,
      Bool.false_eq_true, if_false, hs]
    simp [List.take_nil, formatSources_nil]

/-- C4 (witness): the raising service concretely yields the empty non-error
response. -/
theorem index_error_caught_empty_result_witness :
    query_context (.up raisingSvc) [fxOld] reqPlain = .ok [] :=
  index_error_caught_empty_result raisingSvc [fxOld] reqPlain (fun _ => rfl) (Or.inl rfl)

/-- C4 (counterexample): with the index raising, the response is `.ok []`
although the in-memory corpus is non-empty; had the index client been
absent, the same request would have returned that corpus — so an index
error does NOT trigger the in-memory fallback. -/
theorem index_error_not_fallback_cx :
    query_context (.up raisingSvc) [fxOld] reqPlain = .ok [] ∧
    query_context .down [fxOld] reqPlain = .ok [formatSource fxOld 0 1] := ⟨rfl, rfl⟩

/-- C5 (amended): for temporal-keyword queries the returned sources are
non-increasing by timestamp on every path, and on the in-memory fallback
path the first source carries the maximum timestamp of the scoped corpus;
on the vector-index path only the hits the index returned are sorted, so
the first source need not be the chronologically latest commit in scope. -/
theorem temporal_sources_sorted :
    (∀ (b : Backend) (g : List Event) (req : QueryRequest) (srcs : List Source),
       isTemporalQuery req.query = true → query_context b g req = .ok srcs →
       srcs.Pairwise srcTsNonInc) ∧
    (∀ (g : List Event) (req : QueryRequest) (s : Source) (rest : List Source),
       isTemporalQuery req.query = true →
       query_context .down g req = .ok (s :: rest) →
       ∀ e ∈ scopedFallbackCorpus g req, strLt s.timestamp e.timestamp = false) := by
  constructor
  · intro b g req srcs ht hok
    unfold query_context at hok
    simp only [ht, Bool.true_or, if_true] at hok
    cases b with
    | down =>
      unfold search_similar_with_temporal_priority at hok
      simp only [if_true] at hok
      injection hok with h
      subst h
      exact pairwise_format_take_take_sort _ _ _ _ _
    | up svc =>
      unfold search_similar_with_temporal_priority at hok
      simp only [if_true] at hok
      injection hok with h
      subst h
      exact pairwise_format_take_take_sort _ _ _ _ _
  · intro g req s rest ht hok
    unfold query_context at hok
    simp only [ht, Bool.true_or, if_true] at hok
    unfold search_similar_with_temporal_priority at hok
    simp only [if_true] at hok
    injection hok with h
    rcases formatSources_cons_inv h with ⟨x, xs, hx, rfl⟩
    rcases take_cons_inv hx with ⟨ys, hy⟩
    rcases take_cons_inv hy with ⟨zs, hz⟩
    intro e he
    exact sortTsDesc_head_max hz e (by unfold scopedFallbackCorpus at he; exact he)

/-- C5 (witness): the sortedness and head-maximality conjuncts applied to
the concrete two-commit corpus and the spec's temporal scenario query. -/
theorem temporal_sources_sorted_witness :
    ([formatSource fxNew 0 2, formatSource fxOld 1 2] : List Source).Pairwise srcTsNonInc ∧
    strLt (formatSource fxNew 0 2).timestamp fxOld.timestamp = false :=
  ⟨temporal_sources_sorted.1 .down [fxOld, fxNew] reqLatest _ (by decide) rfl,
   temporal_sources_sorted.2 [fxOld, fxNew] reqLatest (formatSource fxNew 0 2)
     [formatSource fxOld 1 2] (by decide) rfl fxOld (by decide)⟩

/-- C5 (counterexample): a temporal query served through the vector index
returns as first (and only) source the 2021 commit although the scoped
in-memory corpus contains a 2023 commit — the index's nearest-neighbor
answer, not the scoped corpus, is what gets sorted. -/
theorem temporal_first_source_not_latest_cx :
    query_context (.up oldOnlySvc) [fxOld, fxNew] reqLatest = .ok [formatSource fxOld 0 1] ∧
    fxNew ∈ scopedFallbackCorpus [fxOld, fxNew] reqLatest ∧
    strLt (formatSource fxOld 0 1).timestamp fxNew.timestamp = true := ⟨rfl, by decide, by decide⟩

/-- C6: `classify_query_type` is a pure, deterministic function of the query
string equal to first-match-wins evaluation of the closed ordered rule list
`specRules` (latest_commit, repository_summary, list_commits,
specific_commit / general_commit_query split on the presence of a 6-40
character hexadecimal token, recent_changes, commit_comparison, timeline,
author_analysis), defaulting to `general`. -/
theorem classify_query_type_ordered_rules (q : String) :
    classify_query_type q = classifyByRules q := by
  unfold classify_query_type classifyByRules specRules
  cases h1 : isLatestQ q <;> cases h2 : isSummaryQ q <;> cases h3 : isListQ q <;>
    cases h4 : isCommitActionQ q <;> cases h5 : hasHexToken q <;>
    cases h6 : isRecentChangesQ q <;> cases h7 : isCompareQ q <;>
    cases h8 : isTimelineQ q <;> cases h9 : isAuthorQ q <;>
    simp only [List.find?, h1, h2, h3, h4, h5, h6, h7, h8, h9, Bool.and_true,
      Bool.and_false, Bool.not_true, Bool.not_false, Bool.true_and, Bool.false_and,
      if_true, if_false, Option.map_some, Option.map_none, Option.getD] <;> rfl

/-- C7 (amended): for a query carrying a 6-40 character hexadecimal token,
`analyze_specific_commit` targets the FIRST commit in result order whose
hash has the token as a prefix, and yields the literal not-found message
when no hash does; the query "explain commit bbb222" classifies as
`specific_commit` and resolves to the commit with hash `bbb222`. (A 4-digit
token such as `bbb2` does not trigger this path at all.) -/
theorem specific_commit_prefix_match :
    (∀ (events : List Event) (q : String),
       extract_commit_hash q ≠ "" →
       (∀ e ∈ events, (extract_commit_hash q).data.isPrefixOf e.commit_hash.data = false) →
       analyze_specific_commit events q = .msg "Could not find the specified commit.") ∧
    (∀ (events : List Event) (q : String) (e : Event),
       extract_commit_hash q ≠ "" →
       analyze_specific_commit events q = .commitReport e →
       e ∈ events ∧ (extract_commit_hash q).data.isPrefixOf e.commit_hash.data = true) ∧
    classify_query_type (asciiLower "explain commit bbb222") = "specific_commit" ∧
    analyze_specific_commit [fxNew, fxBbb] "explain commit bbb222" = .commitReport fxBbb := by
  refine ⟨?_, ?_, by decide, by decide⟩
  · intro events q hq hnone
    unfold analyze_specific_commit
    rw [if_pos hq]
    have : events.find? (fun e => (extract_commit_hash q).data.isPrefixOf e.commit_hash.data)
        = none := by
      apply List.find?_eq_none.mpr
      intro x hx
      simp [hnone x hx]
    rw [this]
  · intro events q e hq hrep
    unfold analyze_specific_commit at hrep
    rw [if_pos hq] at hrep
    cases hf : events.find?
        (fun e => (extract_commit_hash q).data.isPrefixOf e.commit_hash.data) with
    | none => rw [hf] at hrep; cases hrep
    | some x =>
      rw [hf] at hrep
      injection hrep with hx
      subst hx
      have hp := List.find?_some
        (p := fun f : Event => (extract_commit_hash q).data.isPrefixOf f.commit_hash.data) hf
      exact ⟨List.mem_of_find?_eq_some hf, hp⟩

/-- C7 (witness): the targeting conjunct applied at the concrete scenario
corpus. -/
theorem specific_commit_prefix_match_witness :
    fxBbb ∈ [fxNew, fxBbb] ∧
    (extract_commit_hash "explain commit bbb222").data.isPrefixOf
      fxBbb.commit_hash.data = true :=
  specific_commit_prefix_match.2.1 [fxNew, fxBbb] "explain commit bbb222" fxBbb
    (by decide) (by decide)

/-- C7 (counterexample): the spec's `bbb2` scenario fails on the code: the
regexes require 6-40 hexadecimal characters, so "explain commit bbb2"
classifies as `general_commit_query` (not `specific_commit`), no hash token
is extracted, and the synthesizer resolves to the chronologically latest
commit `ccc333ccc333` rather than to `bbb222`. -/
theorem specific_commit_bbb2_cx :
    classify_query_type (asciiLower "explain commit bbb2") = "general_commit_query" ∧
    extract_commit_hash "explain commit bbb2" = "" ∧
    generate_intelligent_answer "explain commit bbb2" [fxNew, fxBbb] none =
      .commitReport fxNew ∧
    fxNew.commit_hash ≠ fxBbb.commit_hash := by
  refine ⟨by decide, by decide, by decide, by decide⟩

/-- C8: the confidence score is exactly base 0.5, plus `min(0.3, 0.05 * n)`
for `n > 0` sources, plus 0.1 for an answer over 100 characters, plus 0.1
for an attribution phrase, capped at 0.95; hence it always lies in
`[0.5, 0.95]` (exact rational arithmetic in place of Python floats). -/
theorem calculate_confidence_formula_and_bounds (q a : String) (s : List Source) :
    calculate_confidence q a s =
      min (19/20 : ℚ)
        ((1/2 : ℚ) + (if s.isEmpty then 0 else min (3/10 : ℚ) ((s.length : ℚ) * (1/20)))
          + (if a.length > 100 then (1/10 : ℚ) else 0)
          + (if strContains a "I found" || strContains a "Based on" then (1/10 : ℚ) else 0)) ∧
    1/2 ≤ calculate_confidence q a s ∧ calculate_confidence q a s ≤ 19/20 := by
  have h0 : (0:ℚ) ≤ min (3/10 : ℚ) ((s.length : ℚ) * (1/20)) := by positivity
  unfold calculate_confidence
  refine ⟨?_, ?_, min_le_left _ _⟩
  · split_ifs <;> ring_nf
  · refine le_min (by norm_num) ?_
    split_ifs <;> linarith

/-- C9: ingestion is not idempotent as specified. With the vector index
down, `check_commit_exists` always answers false, so the same commit hash
ingested twice is stored twice (the store then holds two copies, though the
distinct-hash count stays 1) and the repository's `commit_count` reaches 2;
and even with the index up and the commit already indexed, the duplicate IS
reported but `commit_count` is still incremented, because the bump happens
before the duplicate check. -/
theorem ingest_duplicate_counts_cx :
    ingestOnce.1 = .success ∧
    ingestTwice.1 = .success ∧
    ingestTwice.2.git_events.length = 2 ∧
    uniqueCommitCount ingestTwice.2.git_events = 1 ∧
    repoCommitCount ingestTwice.2 "/r" = 2 ∧
    ingestTwiceUp.1 = .duplicate ∧
    ingestTwiceUp.2.git_events.length = 1 ∧
    repoCommitCount ingestTwiceUp.2 "/r" = 2 := by decide

/-- C10: for every query (hence every classified intent) and every
language-model outcome, answer synthesis on an empty commit list returns the
literal no-data message of the dispatcher, and each individual formatter
likewise returns its literal no-data message on an empty list instead of
raising. -/
theorem synthesis_empty_returns_no_data (q : String) (llm : Option String) :
    generate_intelligent_answer q [] llm = .msg "No relevant events found." ∧
    get_latest_commit [] = .msg "No commits found." ∧
    get_recent_changes [] 5 = .msg "No recent changes found." ∧
    generate_enhanced_repository_summary [] q = .msg "No repository data available for summary." ∧
    list_all_commits [] q = .msg "No commits found." ∧
    analyze_specific_commit [] q = .msg "Could not find the specified commit." ∧
    (handle_general_commit_query [] q = .msg "No commits found." ∨
      handle_general_commit_query [] q = .msg "Could not find the specified commit.") ∧
    compare_commits [] q = .msg "Need at least 2 commits to compare." ∧
    generate_detailed_timeline [] q = .msg "No timeline data available." ∧
    analyze_author_activity [] q = .msg "No author data available." ∧
    generate_fallback_response q [] = .msg "No relevant events found." := by
  have hspec : analyze_specific_commit [] q = .msg "Could not find the specified commit." := by
    unfold analyze_specific_commit
    by_cases hc : extract_commit_hash q ≠ "" <;> simp [hc]
  refine ⟨rfl, rfl, rfl, rfl, rfl, hspec, ?_, rfl, rfl, rfl, rfl⟩
  unfold handle_general_commit_query
  split
  · left; rfl
  · right; exact hspec
